import Mathlib

/-!
# go-hyperliquid: the action execution pipeline

A shallow embedding of `exchange.go` (the `Exchange` record, `NewExchange`,
`executeAction`, `postAction`) and of `opt.go` (the functional options), followed by
theorems about the request envelope and about error propagation.

Conventions of the embedding

* A Go value of interface type `any` is a term of `GoAny`; the nil interface is `GoAny.nil`.
* A Go `map[string]T` is an association list read through `GoMap.get?` (first binding of a
  key) and written through `GoMap.set` (replace the binding of a key, or add one).
* A Go pointer that may be nil is an `Option`; dereferencing `none` is a run-time panic.
* The collaborators that live outside the two source files (the clock, `SignL1Action`,
  `Client.post`, `json.Unmarshal`) are fields of `Collab`; they thread an abstract external
  world `ω`, and every call the embedded code makes is recorded in a call log.
* `int64` values are never used in arithmetic by this code, so they are plain `Int`.
-/

set_option autoImplicit false

namespace Hyperliquid

/-! ## Go values -/

/-- Values of the Go interface type `any` that can reach the pipeline. `σ` is the type
`SignatureResult`, which the pipeline embeds into the payload without inspecting it. -/
inductive GoAny (σ : Type) where
  /-- the nil interface value -/
  | nil : GoAny σ
  /-- a `bool` -/
  | bool (b : Bool) : GoAny σ
  /-- an `int64` -/
  | int64 (n : Int) : GoAny σ
  /-- a `string` -/
  | string (s : String) : GoAny σ
  /-- a slice `[]any` -/
  | slice (xs : List (GoAny σ)) : GoAny σ
  /-- a `map[string]any`: the loosely-typed representation of an action -/
  | map (m : List (String × GoAny σ)) : GoAny σ
  /-- a value of a named struct type, its fields listed under their JSON names: the
  strongly-typed representation of an action -/
  | struct (typeName : String) (fields : List (String × GoAny σ)) : GoAny σ
  /-- a `SignatureResult` -/
  | signature (s : σ) : GoAny σ

/-- A Go `map[string]T`. -/
abbrev GoMap (α : Type) := List (String × α)

/-- Lookup with presence: the value bound to `k`, or `none` when `k` is not a key. -/
def GoMap.get? {α : Type} : GoMap α → String → Option α
  | [], _ => none
  | (k', v) :: rest, k => if k' = k then some v else GoMap.get? rest k

/-- The assignment `m[k] = v`. -/
def GoMap.set {α : Type} : GoMap α → String → α → GoMap α
  | [], k, v => [(k, v)]
  | (k', v') :: rest, k, v =>
    if k' = k then (k, v) :: rest else (k', v') :: GoMap.set rest k v

/-- The index expression `m[k]` on a `map[string]any`: a missing key yields the zero value
of `any`, the nil interface. -/
def GoMap.index {σ : Type} (m : GoMap (GoAny σ)) (k : String) : GoAny σ :=
  (GoMap.get? m k).getD GoAny.nil

/-- The comparison `v == s` of an interface value with a string constant. The constant is
converted to `any`; two interface values are equal when their dynamic types are identical
and their values are equal, so the result is true exactly for a `string` holding `s`. -/
def GoAny.eqString {σ : Type} : GoAny σ → String → Bool
  | GoAny.string t, s => decide (t = s)
  | _, _ => false

/-- The type assertion `action.(map[string]any)`: the map and `ok`. -/
def GoAny.assertMap {σ : Type} : GoAny σ → Option (GoMap (GoAny σ))
  | GoAny.map m => some m
  | _ => none

/-! ## Records -/

/-- The logger that `ClientOptDebugMode` installs, described by the three settings it is
built from. -/
structure Logger where
  level : String
  writer : String
  env : String
  deriving DecidableEq, Repr

/-- The `Client` record. It is declared outside the two source files; these are the fields
the source files read or write (`baseURL` in `executeAction`, `debug` and `logger` in
`ClientOptDebugMode`). -/
structure Client where
  baseURL : String
  debug : Bool
  logger : Option Logger
  deriving DecidableEq, Repr

/-- Go: `type Opt[T any] func(*T)`: a modifier of a `T`. -/
abbrev Opt (T : Type) := T → T

/-- Go: `func (o Opt[T]) Apply(opt *T)`. -/
def Opt.Apply {T : Type} (o : Opt T) (opt : T) : T := o opt

abbrev ClientOpt := Opt Client

/-- The `Info` record. It is declared outside the two source files; these are the fields
`opt.go` writes. -/
structure Info where
  debug : Bool
  clientOpts : List ClientOpt

abbrev InfoOpt := Opt Info

/-- The `Exchange` record of `exchange.go`, over the type `κ` of `*ecdsa.PrivateKey`.
The last two fields are not declared by the struct in `exchange.go`; `opt.go` assigns to
`e.clientOpts` and `e.infoOpts`, so they are carried here for those two options to have
something to write to. -/
structure Exchange (κ : Type) where
  debug : Bool
  client : Option Client
  privateKey : κ
  vault : String
  accountAddr : String
  info : Option Info
  expiresAfter : Option Int
  clientOpts : List ClientOpt
  infoOpts : List InfoOpt

abbrev ExchangeOpt (κ : Type) := Opt (Exchange κ)

/-! ## Collaborators and the call log -/

/-- The body of an HTTP response, `[]byte`. -/
abbrev Bytes := List UInt8

/-- One call made by the embedded code to a collaborator, with its arguments. -/
inductive Call (κ σ : Type) where
  /-- Go: `time.Now().UnixMilli()` -/
  | now : Call κ σ
  /-- Go: `SignL1Action(privateKey, action, vaultAddress, timestamp, expiresAfter, isMainnet)` -/
  | sign (privateKey : κ) (action : GoAny σ) (vaultAddress : String) (timestamp : Int)
      (expiresAfter : Option Int) (isMainnet : Bool) : Call κ σ
  /-- Go: `client.post(path, payload)` -/
  | post (client : Option Client) (path : String) (payload : GoMap (GoAny σ)) : Call κ σ
  /-- Go: `json.Unmarshal(data, result)` -/
  | unmarshal (data : Bytes) : Call κ σ

/-- Recognises a clock reading in the log. -/
def Call.isNow {κ σ : Type} : Call κ σ → Bool
  | Call.now => true
  | _ => false

/-- Recognises a transport call in the log. -/
def Call.isPost {κ σ : Type} : Call κ σ → Bool
  | Call.post _ _ _ => true
  | _ => false

/-- Recognises a decode call in the log. -/
def Call.isUnmarshal {κ σ : Type} : Call κ σ → Bool
  | Call.unmarshal _ => true
  | _ => false

/-- What the pipeline consumes from outside the two source files. `ω` is the external world
(clock, network, ...), `ε` the values of the Go type `error`, `ρ` the type the caller's
`result` points to. -/
structure Collab (ω κ σ ε ρ : Type) where
  /-- the constant `MainnetAPIURL` -/
  MainnetAPIURL : String
  /-- Go: `time.Now().UnixMilli()` -/
  now : ω → Int × ω
  /-- Go: `SignL1Action` -/
  SignL1Action : κ → GoAny σ → String → Int → Option Int → Bool → ω → Except ε σ × ω
  /-- the method `(*Client).post`, its receiver first -/
  post : Option Client → String → GoMap (GoAny σ) → ω → Except ε Bytes × ω
  /-- Go: `json.Unmarshal(data, result)`: the value `result` points to afterwards (it may have
  been written to even when an error is returned) and the error, `none` for nil -/
  Unmarshal : Bytes → ρ → ρ × Option ε

/-- A finished call: what it produced, the external world afterwards, and the calls it made
to collaborators, oldest first. -/
structure Ran (α ω κ σ : Type) where
  value : α
  world : ω
  calls : List (Call κ σ)

/-! ## `postAction` -/

/-- Lines 85 to 109 of `postAction`: the payload as it stands when `client.post` is
called. -/
def postActionPayload {κ σ : Type} (e : Exchange κ) (action : GoAny σ) (signature : σ)
    (nonce : Int) : GoMap (GoAny σ) :=
  let payload : GoMap (GoAny σ) :=
    GoMap.set (GoMap.set (GoMap.set [] "action" action) "nonce" (GoAny.int64 nonce))
      "signature" (GoAny.signature signature)
  let payload :=
    if e.vault ≠ "" then
      match action.assertMap with
      | some actionMap =>
        if !(GoMap.index actionMap "type").eqString "usdClassTransfer" then
          GoMap.set payload "vaultAddress" (GoAny.string e.vault)
        else
          GoMap.set payload "vaultAddress" GoAny.nil
      | none =>
        GoMap.set payload "vaultAddress" (GoAny.string e.vault)
    else payload
  let payload :=
    match e.expiresAfter with
    | some expiresAfter => GoMap.set payload "expiresAfter" (GoAny.int64 expiresAfter)
    | none => payload
  payload

/-- Go: `func (e *Exchange) postAction(action any, signature SignatureResult, nonce int64)
([]byte, error)`. -/
def postAction {ω κ σ ε ρ : Type} (env : Collab ω κ σ ε ρ) (e : Exchange κ)
    (action : GoAny σ) (signature : σ) (nonce : Int) (w : ω) :
    Ran (Except ε Bytes) ω κ σ :=
  let payload := postActionPayload e action signature nonce
  let r := env.post e.client "/exchange" payload w
  { value := r.1, world := r.2, calls := [Call.post e.client "/exchange" payload] }

/-! ## `executeAction` -/

/-- What `executeAction` leaves behind when it returns: the returned `error` (`none` for
nil) and the value the caller's `result` points to. -/
structure Executed (ε ρ : Type) where
  err : Option ε
  result : ρ

/-- How a call of `executeAction` ended: it returned, or it panicked on a nil pointer. -/
inductive Outcome (ε ρ : Type) where
  | returned (x : Executed ε ρ) : Outcome ε ρ
  | panicked : Outcome ε ρ

/-- Go: `func (e *Exchange) executeAction(action, result any) error`. The caller's `result`
points to `result`. -/
def executeAction {ω κ σ ε ρ : Type} (env : Collab ω κ σ ε ρ) (e : Exchange κ)
    (action : GoAny σ) (result : ρ) (w : ω) : Ran (Outcome ε ρ) ω κ σ :=
  let t := env.now w
  let timestamp := t.1
  -- the arguments of `SignL1Action` are evaluated before the call: `e.client.baseURL`
  match e.client with
  | none => { value := Outcome.panicked, world := t.2, calls := [Call.now] }
  | some client =>
    let isMainnet := decide (client.baseURL = env.MainnetAPIURL)
    let s := env.SignL1Action e.privateKey action e.vault timestamp e.expiresAfter isMainnet t.2
    let signCall : Call κ σ :=
      Call.sign e.privateKey action e.vault timestamp e.expiresAfter isMainnet
    match s.1 with
    | Except.error err =>
      { value := Outcome.returned { err := some err, result := result }, world := s.2,
        calls := [Call.now, signCall] }
    | Except.ok sig =>
      let p := postAction env e action sig timestamp s.2
      match p.value with
      | Except.error err =>
        { value := Outcome.returned { err := some err, result := result }, world := p.world,
          calls := [Call.now, signCall] ++ p.calls }
      | Except.ok resp =>
        let u := env.Unmarshal resp result
        { value := Outcome.returned { err := u.2, result := u.1 }, world := p.world,
          calls := [Call.now, signCall] ++ p.calls ++ [Call.unmarshal resp] }

/-! ## Options (`opt.go`) and `NewExchange` -/

/-- Go: `func InfoOptDebugMode() InfoOpt`. -/
def InfoOptDebugMode : InfoOpt :=
  fun i => { i with debug := true }

/-- Go: `func ExchangeOptDebugMode() ExchangeOpt`. -/
def ExchangeOptDebugMode {κ : Type} : ExchangeOpt κ :=
  fun e => { e with debug := true }

/-- Go: `func ClientOptDebugMode() ClientOpt`. -/
def ClientOptDebugMode : ClientOpt :=
  fun c => { c with debug := true,
                    logger := some { level := "trace", writer := "stderr", env := "dev" } }

/-- Go: `func ExchangeOptClientOptions(opts ...ClientOpt) ExchangeOpt`. -/
def ExchangeOptClientOptions {κ : Type} (opts : List ClientOpt) : ExchangeOpt κ :=
  fun e => { e with clientOpts := e.clientOpts ++ opts }

/-- Go: `func ExchangeOptInfoOptions(opts ...InfoOpt) ExchangeOpt`. -/
def ExchangeOptInfoOptions {κ : Type} (opts : List InfoOpt) : ExchangeOpt κ :=
  fun e => { e with infoOpts := e.infoOpts ++ opts }

/-- Go: `func InfoOptClientOptions(opts ...ClientOpt) InfoOpt`. -/
def InfoOptClientOptions (opts : List ClientOpt) : InfoOpt :=
  fun i => { i with clientOpts := i.clientOpts ++ opts }

/-- Go: `func NewExchange(privateKey, baseURL, meta, vaultAddr, accountAddr, spotMeta, opts...)
*Exchange`. The constructors `NewClient` and `NewInfo` are declared outside the two source
files and are taken as parameters; `μ` and `ς` are the types `*Meta` and `*SpotMeta`. -/
def NewExchange {κ μ ς : Type}
    (NewClient : String → List ClientOpt → Option Client)
    (NewInfo : String → Bool → μ → ς → List InfoOpt → Option Info)
    (privateKey : κ) (baseURL : String) (metaData : μ) (vaultAddr accountAddr : String)
    (spotMeta : ς) (opts : List (ExchangeOpt κ)) : Exchange κ :=
  let ex : Exchange κ :=
    { debug := false, client := none, privateKey := privateKey, vault := vaultAddr,
      accountAddr := accountAddr, info := none, expiresAfter := none,
      clientOpts := [], infoOpts := [] }
  let ex := opts.foldl (fun ex opt => opt.Apply ex) ex
  let clientOpts : List ClientOpt := []
  let infoOpts : List InfoOpt := []
  let clientOpts := if ex.debug then clientOpts ++ [ClientOptDebugMode] else clientOpts
  let infoOpts := if ex.debug then infoOpts ++ [InfoOptDebugMode] else infoOpts
  let ex := { ex with client := NewClient baseURL clientOpts }
  let ex := { ex with info := NewInfo baseURL true metaData spotMeta infoOpts }
  ex

/-- Modelled from the spec: `NewClient` is declared outside the two source files. The
configuration contract reads "constructed from a base configuration plus an ordered
sequence of modifier functions (options) ... applied strictly in the order given": a
client for `baseURL` with debugging off, then each option applied in turn. -/
def NewClient (baseURL : String) (opts : List ClientOpt) : Option Client :=
  some (opts.foldl (fun c opt => opt.Apply c) { baseURL := baseURL, debug := false, logger := none })

/-- Modelled from the spec: `NewInfo` is declared outside the two source files. As for
`NewClient`: a fresh record, then each option applied in the order given. The arguments
that only concern metadata retrieval are not stored. -/
def NewInfo {μ ς : Type} (_baseURL : String) (_skipWS : Bool) (_metaData : μ) (_spotMeta : ς)
    (opts : List InfoOpt) : Option Info :=
  some (opts.foldl (fun i opt => opt.Apply i) { debug := false, clientOpts := [] })

/-! ## The kind of an action, as the specification speaks of it -/

/-- The specification's notion of the kind of an action: the `type` discriminator, read
"uniformly whether the action is represented as a loosely-typed key/value structure or a
strongly-typed record". This definition follows the specification, not the code. -/
def actionKind {σ : Type} : GoAny σ → Option String
  | GoAny.map m =>
    match GoMap.get? m "type" with
    | some (GoAny.string s) => some s
    | _ => none
  | GoAny.struct _ fields =>
    match GoMap.get? fields "type" with
    | some (GoAny.string s) => some s
    | _ => none
  | _ => none

/-! ## Concrete collaborators and inputs -/

/-- Collaborators with scripted answers. The external world is the number of clock readings
made so far, and the `n`-th reading is `1700000000000 + n`, so that two readings in one call
would give two different timestamps. Errors are strings, signatures are strings, and the
caller's result is a list of bytes. -/
def scripted (signed : Except String String) (posted : Except String Bytes)
    (decoded : Bytes → List UInt8 → List UInt8 × Option String) :
    Collab Nat Nat String String (List UInt8) :=
  { MainnetAPIURL := "https://api.hyperliquid.xyz",
    now := fun w => (1700000000000 + (w : Int), w + 1),
    SignL1Action := fun _ _ _ _ _ _ w => (signed, w),
    post := fun _ _ _ w => (posted, w),
    Unmarshal := decoded }

/-- A decoder that stores the response in the result. -/
def decodeAll : Bytes → List UInt8 → List UInt8 × Option String :=
  fun data _ => (data, none)

/-- A decoder that rejects every response, leaving the result as it was. -/
def decodeNone (err : String) : Bytes → List UInt8 → List UInt8 × Option String :=
  fun _ result => (result, some err)

/-- An exchange trading for the vault `0xABC` on the test network, no expiration. -/
def vaultExchange : Exchange Nat :=
  { debug := false,
    client := some { baseURL := "https://api.hyperliquid-testnet.xyz", debug := false,
                     logger := none },
    privateKey := 7, vault := "0xABC", accountAddr := "", info := none,
    expiresAfter := none, clientOpts := [], infoOpts := [] }

/-- An exchange trading for its own account, with an expiration. -/
def ownExchange : Exchange Nat :=
  { vaultExchange with vault := "", expiresAfter := some 1700000000000 }

/-- A USD class transfer in the loosely-typed representation. -/
def transferMap : GoAny String :=
  GoAny.map [("type", GoAny.string "usdClassTransfer"), ("amount", GoAny.string "10"),
             ("toPerp", GoAny.bool true)]

/-- A USD class transfer in the strongly-typed representation: the same entries as
`transferMap`, as the fields of a struct. -/
def transferStruct : GoAny String :=
  GoAny.struct "UsdClassTransferAction"
    [("type", GoAny.string "usdClassTransfer"), ("amount", GoAny.string "10"),
     ("toPerp", GoAny.bool true)]

/-- An order in the loosely-typed representation. -/
def orderMap : GoAny String :=
  GoAny.map [("type", GoAny.string "order"), ("grouping", GoAny.string "na")]

/-! ## Lemmas on maps -/

theorem GoMap.get?_set_self {α : Type} (m : GoMap α) (k : String) (v : α) :
    GoMap.get? (GoMap.set m k v) k = some v := by
  induction m with
  | nil => simp [GoMap.set, GoMap.get?]
  | cons hd tl ih =>
    obtain ⟨k', v'⟩ := hd
    by_cases h : k' = k
    · simp [GoMap.set, GoMap.get?, h]
    · simp [GoMap.set, GoMap.get?, h, ih]

theorem GoMap.get?_set_other {α : Type} (m : GoMap α) (k j : String) (v : α) (h : k ≠ j) :
    GoMap.get? (GoMap.set m k v) j = GoMap.get? m j := by
  induction m with
  | nil => simp [GoMap.set, GoMap.get?, h]
  | cons hd tl ih =>
    obtain ⟨k', v'⟩ := hd
    by_cases hk : k' = k
    · subst hk
      simp [GoMap.set, GoMap.get?, h]
    · by_cases hj : k' = j
      · subst hj
        simp [GoMap.set, GoMap.get?, hk]
      · simp [GoMap.set, GoMap.get?, hk, hj, ih]

/-- What `postAction` leaves under `vaultAddress`, read off the payload: nothing when no
vault is configured; otherwise null for a `map[string]any` whose `type` entry is the string
`usdClassTransfer`, and the vault for every other action. -/
theorem get?_vaultAddress_postActionPayload {κ σ : Type} (e : Exchange κ) (action : GoAny σ)
    (signature : σ) (nonce : Int) :
    GoMap.get? (postActionPayload e action signature nonce) "vaultAddress" =
      if e.vault = "" then none
      else match action.assertMap with
        | some actionMap =>
          if (GoMap.index actionMap "type").eqString "usdClassTransfer" then some GoAny.nil
          else some (GoAny.string e.vault)
        | none => some (GoAny.string e.vault) := by
  have hx : ("expiresAfter" : String) ≠ "vaultAddress" := by decide
  have ha : ("action" : String) ≠ "vaultAddress" := by decide
  have hn : ("nonce" : String) ≠ "vaultAddress" := by decide
  have hs : ("signature" : String) ≠ "vaultAddress" := by decide
  unfold postActionPayload
  by_cases hv : e.vault = ""
  · cases hE : e.expiresAfter <;>
      simp [hv, GoMap.get?_set_other, ha, hn, hs, hx, GoMap.get?]
  · cases hE : e.expiresAfter <;> cases hm : action.assertMap <;>
      simp [hv, GoMap.get?_set_other, GoMap.get?_set_self, hx]
    all_goals
      cases ht : (GoMap.index _ "type").eqString "usdClassTransfer" <;>
        simp [GoMap.get?_set_self]

/-- What `postAction` leaves under `expiresAfter`, read off the payload. -/
theorem get?_expiresAfter_postActionPayload {κ σ : Type} (e : Exchange κ) (action : GoAny σ)
    (signature : σ) (nonce : Int) :
    GoMap.get? (postActionPayload e action signature nonce) "expiresAfter" =
      e.expiresAfter.map GoAny.int64 := by
  have hv : ("vaultAddress" : String) ≠ "expiresAfter" := by decide
  have ha : ("action" : String) ≠ "expiresAfter" := by decide
  have hn : ("nonce" : String) ≠ "expiresAfter" := by decide
  have hs : ("signature" : String) ≠ "expiresAfter" := by decide
  unfold postActionPayload
  cases hE : e.expiresAfter with
  | some x => simp [GoMap.get?_set_self]
  | none =>
    simp only [Option.map_none']
    split_ifs <;> (try split) <;> (try split_ifs) <;>
      simp [GoMap.get?_set_other, ha, hn, hs, hv, GoMap.get?]

theorem postAction_calls {ω κ σ ε ρ : Type} (env : Collab ω κ σ ε ρ) (e : Exchange κ)
    (action : GoAny σ) (signature : σ) (nonce : Int) (w : ω) :
    (postAction env e action signature nonce w).calls =
      [Call.post e.client "/exchange" (postActionPayload e action signature nonce)] :=
  rfl

/-! ## The envelope built by `postAction` -/

/-- Claim C1. For a `map[string]any` action whose `type` entry is the string
`usdClassTransfer` and a non-empty configured vault, whatever the signature, the nonce and
the expiration are, `postAction` makes one call to the transport, and the payload of that
call has the key `vaultAddress` bound to null, not to the configured vault. -/
theorem postAction_usdClassTransfer_vaultAddress_null {ω κ σ ε ρ : Type}
    (env : Collab ω κ σ ε ρ) (e : Exchange κ) (m : GoMap (GoAny σ)) (signature : σ)
    (nonce : Int) (w : ω) (hv : e.vault ≠ "")
    (ht : GoMap.get? m "type" = some (GoAny.string "usdClassTransfer")) :
    ∃ payload,
      (postAction env e (GoAny.map m) signature nonce w).calls
        = [Call.post e.client "/exchange" payload] ∧
      GoMap.get? payload "vaultAddress" = some GoAny.nil ∧
      GoMap.get? payload "vaultAddress" ≠ some (GoAny.string e.vault) := by
  refine ⟨_, postAction_calls env e _ signature nonce w, ?_⟩
  have h : GoMap.get? (postActionPayload e (GoAny.map m) signature nonce) "vaultAddress"
      = some GoAny.nil := by
    rw [get?_vaultAddress_postActionPayload]
    simp [hv, GoAny.assertMap, GoMap.index, ht, GoAny.eqString]
  rw [h]
  exact ⟨rfl, by simp⟩

/-- Claim C1 at the vault `0xABC` and a USD class transfer given as a map. -/
theorem postAction_usdClassTransfer_vaultAddress_null_witness :
    vaultExchange.vault ≠ "" ∧
    GoMap.get? [("type", GoAny.string "usdClassTransfer"), ("amount", GoAny.string "10")]
        "type" = some (GoAny.string "usdClassTransfer" : GoAny String) ∧
    ∃ payload,
      (postAction (scripted (Except.ok "sig") (Except.ok []) decodeAll) vaultExchange
          (GoAny.map [("type", GoAny.string "usdClassTransfer"),
                      ("amount", GoAny.string "10")]) "sig" 42 0).calls
        = [Call.post vaultExchange.client "/exchange" payload] ∧
      GoMap.get? payload "vaultAddress" = some GoAny.nil ∧
      GoMap.get? payload "vaultAddress" ≠ some (GoAny.string vaultExchange.vault) :=
  ⟨by decide, rfl,
    postAction_usdClassTransfer_vaultAddress_null _ vaultExchange _ "sig" 42 0
      (by decide) rfl⟩

/-- Claim C2. For an action whose kind is anything other than `usdClassTransfer` (a map
without a `type` entry or with a `type` entry that is not a string included) and a
non-empty configured vault, `postAction` makes one call to the transport, and the payload
of that call binds `vaultAddress` to the configured vault. -/
theorem postAction_other_kind_vaultAddress_is_vault {ω κ σ ε ρ : Type}
    (env : Collab ω κ σ ε ρ) (e : Exchange κ) (action : GoAny σ) (signature : σ)
    (nonce : Int) (w : ω) (hv : e.vault ≠ "")
    (hk : actionKind action ≠ some "usdClassTransfer") :
    ∃ payload,
      (postAction env e action signature nonce w).calls
        = [Call.post e.client "/exchange" payload] ∧
      GoMap.get? payload "vaultAddress" = some (GoAny.string e.vault) := by
  refine ⟨_, postAction_calls env e _ signature nonce w, ?_⟩
  rw [get?_vaultAddress_postActionPayload]
  simp only [hv, if_false]
  cases action with
  | map m =>
    have key : ∀ x : Option (GoAny σ), GoMap.get? m "type" = x →
        (x.getD GoAny.nil).eqString "usdClassTransfer" = false := by
      intro x hm
      cases x with
      | none => rfl
      | some v =>
        cases v with
        | string s =>
          have hs : s ≠ "usdClassTransfer" := by
            intro hs
            apply hk
            simp [actionKind, hm, hs]
          simp [GoAny.eqString, hs]
        | _ => rfl
    simp [GoAny.assertMap, GoMap.index, key _ rfl]
  | _ => simp [GoAny.assertMap]

/-- Claim C2 at the vault `0xABC` and an order. -/
theorem postAction_other_kind_vaultAddress_is_vault_witness :
    vaultExchange.vault ≠ "" ∧ actionKind orderMap ≠ some "usdClassTransfer" ∧
    ∃ payload,
      (postAction (scripted (Except.ok "sig") (Except.ok []) decodeAll) vaultExchange
          orderMap "sig" 42 0).calls
        = [Call.post vaultExchange.client "/exchange" payload] ∧
      GoMap.get? payload "vaultAddress" = some (GoAny.string vaultExchange.vault) :=
  ⟨by decide, by decide,
    postAction_other_kind_vaultAddress_is_vault _ vaultExchange orderMap "sig" 42 0
      (by decide) (by decide)⟩

/-- Claim C3. When the configured vault is the empty string, for every action of any kind
and any representation, `postAction` makes one call to the transport, and the payload of
that call has no `vaultAddress` key at all (the lookup reports absence, which differs from
a key bound to null). -/
theorem postAction_empty_vault_no_vaultAddress {ω κ σ ε ρ : Type}
    (env : Collab ω κ σ ε ρ) (e : Exchange κ) (action : GoAny σ) (signature : σ)
    (nonce : Int) (w : ω) (hv : e.vault = "") :
    ∃ payload,
      (postAction env e action signature nonce w).calls
        = [Call.post e.client "/exchange" payload] ∧
      GoMap.get? payload "vaultAddress" = none ∧
      GoMap.get? payload "vaultAddress" ≠ some GoAny.nil := by
  refine ⟨_, postAction_calls env e _ signature nonce w, ?_⟩
  have h : GoMap.get? (postActionPayload e action signature nonce) "vaultAddress" = none := by
    rw [get?_vaultAddress_postActionPayload]
    simp [hv]
  rw [h]
  exact ⟨rfl, by simp⟩

/-- Claim C3 at an exchange without a vault and a USD class transfer given as a map. -/
theorem postAction_empty_vault_no_vaultAddress_witness :
    ownExchange.vault = "" ∧
    ∃ payload,
      (postAction (scripted (Except.ok "sig") (Except.ok []) decodeAll) ownExchange
          transferMap "sig" 42 0).calls
        = [Call.post ownExchange.client "/exchange" payload] ∧
      GoMap.get? payload "vaultAddress" = none ∧
      GoMap.get? payload "vaultAddress" ≠ some GoAny.nil :=
  ⟨by decide,
    postAction_empty_vault_no_vaultAddress _ ownExchange transferMap "sig" 42 0 (by decide)⟩

/-- Claim C4. For every action, signature, nonce and vault setting, `postAction` makes one
call to the transport, and the payload of that call has the key `expiresAfter` exactly
when the exchange has an expiration set; when it is set to `E` the key is bound to `E`,
whatever the nonce is. -/
theorem postAction_expiresAfter_iff_set {ω κ σ ε ρ : Type}
    (env : Collab ω κ σ ε ρ) (e : Exchange κ) (action : GoAny σ) (signature : σ)
    (nonce : Int) (w : ω) :
    ∃ payload,
      (postAction env e action signature nonce w).calls
        = [Call.post e.client "/exchange" payload] ∧
      ((GoMap.get? payload "expiresAfter").isSome = true ↔ e.expiresAfter.isSome = true) ∧
      ∀ E : Int, e.expiresAfter = some E →
        GoMap.get? payload "expiresAfter" = some (GoAny.int64 E) := by
  refine ⟨_, postAction_calls env e _ signature nonce w, ?_, ?_⟩
  · rw [get?_expiresAfter_postActionPayload]
    cases e.expiresAfter <;> simp
  · intro E hE
    rw [get?_expiresAfter_postActionPayload, hE]
    rfl

/-! ## The base entries of the envelope -/

/-- The vault step and the expiration step write to no key other than their own. -/
theorem get?_postActionPayload_of_ne {κ σ : Type} (e : Exchange κ) (action : GoAny σ)
    (signature : σ) (nonce : Int) (k : String) (hv : "vaultAddress" ≠ k)
    (hx : "expiresAfter" ≠ k) :
    GoMap.get? (postActionPayload e action signature nonce) k =
      GoMap.get?
        (GoMap.set (GoMap.set (GoMap.set [] "action" action) "nonce" (GoAny.int64 nonce))
          "signature" (GoAny.signature signature)) k := by
  unfold postActionPayload
  cases e.expiresAfter <;> by_cases hvault : e.vault = "" <;>
    cases action.assertMap <;>
    simp [hvault, GoMap.get?_set_other, hv, hx]
  all_goals
    cases (GoMap.index _ "type").eqString "usdClassTransfer" <;>
      simp [GoMap.get?_set_other, hv]

theorem get?_nonce_postActionPayload {κ σ : Type} (e : Exchange κ) (action : GoAny σ)
    (signature : σ) (nonce : Int) :
    GoMap.get? (postActionPayload e action signature nonce) "nonce"
      = some (GoAny.int64 nonce) := by
  rw [get?_postActionPayload_of_ne e action signature nonce "nonce" (by decide) (by decide),
    GoMap.get?_set_other _ _ _ _ (by decide), GoMap.get?_set_self]

theorem get?_action_postActionPayload {κ σ : Type} (e : Exchange κ) (action : GoAny σ)
    (signature : σ) (nonce : Int) :
    GoMap.get? (postActionPayload e action signature nonce) "action" = some action := by
  rw [get?_postActionPayload_of_ne e action signature nonce "action" (by decide) (by decide),
    GoMap.get?_set_other _ _ _ _ (by decide), GoMap.get?_set_other _ _ _ _ (by decide),
    GoMap.get?_set_self]

theorem get?_signature_postActionPayload {κ σ : Type} (e : Exchange κ) (action : GoAny σ)
    (signature : σ) (nonce : Int) :
    GoMap.get? (postActionPayload e action signature nonce) "signature"
      = some (GoAny.signature signature) := by
  rw [get?_postActionPayload_of_ne e action signature nonce "signature" (by decide)
    (by decide), GoMap.get?_set_self]

/-! ## `executeAction`, stage by stage -/

/-- A call of `executeAction` in which the signer fails. -/
theorem executeAction_of_sign_error {ω κ σ ε ρ : Type} (env : Collab ω κ σ ε ρ)
    (e : Exchange κ) (c : Client) (action : GoAny σ) (result : ρ) (w w₁ w₂ : ω) (t : Int)
    (err : ε) (hc : e.client = some c) (hnow : env.now w = (t, w₁))
    (hs : env.SignL1Action e.privateKey action e.vault t e.expiresAfter
      (decide (c.baseURL = env.MainnetAPIURL)) w₁ = (Except.error err, w₂)) :
    executeAction env e action result w =
      { value := Outcome.returned { err := some err, result := result }, world := w₂,
        calls := [Call.now, Call.sign e.privateKey action e.vault t e.expiresAfter
          (decide (c.baseURL = env.MainnetAPIURL))] } := by
  simp [executeAction, hc, hnow, hs]

/-- A call of `executeAction` in which the signer succeeds and the transport fails. -/
theorem executeAction_of_post_error {ω κ σ ε ρ : Type} (env : Collab ω κ σ ε ρ)
    (e : Exchange κ) (c : Client) (action : GoAny σ) (result : ρ) (w w₁ w₂ w₃ : ω) (t : Int)
    (sig : σ) (err : ε) (hc : e.client = some c) (hnow : env.now w = (t, w₁))
    (hs : env.SignL1Action e.privateKey action e.vault t e.expiresAfter
      (decide (c.baseURL = env.MainnetAPIURL)) w₁ = (Except.ok sig, w₂))
    (hp : env.post e.client "/exchange" (postActionPayload e action sig t) w₂
      = (Except.error err, w₃)) :
    executeAction env e action result w =
      { value := Outcome.returned { err := some err, result := result }, world := w₃,
        calls := [Call.now, Call.sign e.privateKey action e.vault t e.expiresAfter
          (decide (c.baseURL = env.MainnetAPIURL)),
          Call.post e.client "/exchange" (postActionPayload e action sig t)] } := by
  rw [hc] at hp
  simp [executeAction, postAction, hc, hnow, hs, hp]

/-- A call of `executeAction` in which the signer and the transport succeed. -/
theorem executeAction_of_post_ok {ω κ σ ε ρ : Type} (env : Collab ω κ σ ε ρ)
    (e : Exchange κ) (c : Client) (action : GoAny σ) (result : ρ) (w w₁ w₂ w₃ : ω) (t : Int)
    (sig : σ) (resp : Bytes) (hc : e.client = some c) (hnow : env.now w = (t, w₁))
    (hs : env.SignL1Action e.privateKey action e.vault t e.expiresAfter
      (decide (c.baseURL = env.MainnetAPIURL)) w₁ = (Except.ok sig, w₂))
    (hp : env.post e.client "/exchange" (postActionPayload e action sig t) w₂
      = (Except.ok resp, w₃)) :
    executeAction env e action result w =
      { value := Outcome.returned
          { err := (env.Unmarshal resp result).2, result := (env.Unmarshal resp result).1 },
        world := w₃,
        calls := [Call.now, Call.sign e.privateKey action e.vault t e.expiresAfter
          (decide (c.baseURL = env.MainnetAPIURL)),
          Call.post e.client "/exchange" (postActionPayload e action sig t),
          Call.unmarshal resp] } := by
  rw [hc] at hp
  simp [executeAction, postAction, hc, hnow, hs, hp]

/-- A call of `executeAction` on an exchange without a client reads the clock and then
panics on `e.client.baseURL`, before the signer is called. -/
theorem executeAction_of_nil_client {ω κ σ ε ρ : Type} (env : Collab ω κ σ ε ρ)
    (e : Exchange κ) (action : GoAny σ) (result : ρ) (w : ω) (hc : e.client = none) :
    (executeAction env e action result w).value = Outcome.panicked ∧
      (executeAction env e action result w).calls = [Call.now] := by
  simp [executeAction, hc]

/-! ## The nonce -/

/-- Claim C5. In a call of `executeAction` in which signing succeeds, the call log starts
with one clock reading, the call to the signer with the timestamp read, and the call to the
transport; the clock is read exactly once in the whole call; and the payload given to the
transport binds `nonce` to the very timestamp given to the signer, `action` to the action
given, and `signature` to the signer's result. -/
theorem executeAction_nonce_is_signed_timestamp {ω κ σ ε ρ : Type} (env : Collab ω κ σ ε ρ)
    (e : Exchange κ) (c : Client) (action : GoAny σ) (result : ρ) (w w₁ w₂ : ω) (t : Int)
    (sig : σ) (hc : e.client = some c) (hnow : env.now w = (t, w₁))
    (hs : env.SignL1Action e.privateKey action e.vault t e.expiresAfter
      (decide (c.baseURL = env.MainnetAPIURL)) w₁ = (Except.ok sig, w₂)) :
    ∃ payload rest,
      (executeAction env e action result w).calls =
        Call.now ::
        Call.sign e.privateKey action e.vault t e.expiresAfter
          (decide (c.baseURL = env.MainnetAPIURL)) ::
        Call.post e.client "/exchange" payload :: rest ∧
      List.countP Call.isNow (executeAction env e action result w).calls = 1 ∧
      GoMap.get? payload "nonce" = some (GoAny.int64 t) ∧
      GoMap.get? payload "action" = some action ∧
      GoMap.get? payload "signature" = some (GoAny.signature sig) := by
  refine ⟨postActionPayload e action sig t, ?_⟩
  cases hp : env.post e.client "/exchange" (postActionPayload e action sig t) w₂ with
  | mk r w₃ =>
    cases r with
    | error err =>
      refine ⟨[], ?_, ?_, get?_nonce_postActionPayload e action sig t,
        get?_action_postActionPayload e action sig t,
        get?_signature_postActionPayload e action sig t⟩
      · rw [executeAction_of_post_error env e c action result w w₁ w₂ w₃ t sig err hc hnow hs hp]
      · rw [executeAction_of_post_error env e c action result w w₁ w₂ w₃ t sig err hc hnow hs hp]
        simp [Call.isNow]
    | ok resp =>
      refine ⟨[Call.unmarshal resp], ?_, ?_, get?_nonce_postActionPayload e action sig t,
        get?_action_postActionPayload e action sig t,
        get?_signature_postActionPayload e action sig t⟩
      · rw [executeAction_of_post_ok env e c action result w w₁ w₂ w₃ t sig resp hc hnow hs hp]
      · rw [executeAction_of_post_ok env e c action result w w₁ w₂ w₃ t sig resp hc hnow hs hp]
        simp [Call.isNow]

/-- Claim C5 at an order signed for the vault `0xABC`, the clock reading 1700000000000. -/
theorem executeAction_nonce_is_signed_timestamp_witness :
    ∃ payload rest,
      (executeAction (scripted (Except.ok "sig") (Except.ok [1, 2]) decodeAll) vaultExchange
          orderMap [] 0).calls =
        Call.now ::
        Call.sign 7 orderMap "0xABC" 1700000000000 none false ::
        Call.post vaultExchange.client "/exchange" payload :: rest ∧
      List.countP Call.isNow
        (executeAction (scripted (Except.ok "sig") (Except.ok [1, 2]) decodeAll) vaultExchange
          orderMap [] 0).calls = 1 ∧
      GoMap.get? payload "nonce" = some (GoAny.int64 1700000000000) ∧
      GoMap.get? payload "action" = some orderMap ∧
      GoMap.get? payload "signature" = some (GoAny.signature "sig") :=
  executeAction_nonce_is_signed_timestamp
    (scripted (Except.ok "sig") (Except.ok [1, 2]) decodeAll) vaultExchange
    { baseURL := "https://api.hyperliquid-testnet.xyz", debug := false, logger := none }
    orderMap [] 0 1 1 1700000000000 "sig" rfl rfl rfl

/-! ## Error propagation -/

/-- Claim C6. If the signer returns an error, `executeAction` returns exactly that error,
the value the caller's `result` points to is as it was, and the call log holds no call to
the transport (and none to the decoder). -/
theorem executeAction_sign_error_no_post {ω κ σ ε ρ : Type} (env : Collab ω κ σ ε ρ)
    (e : Exchange κ) (c : Client) (action : GoAny σ) (result : ρ) (w w₁ w₂ : ω) (t : Int)
    (err : ε) (hc : e.client = some c) (hnow : env.now w = (t, w₁))
    (hs : env.SignL1Action e.privateKey action e.vault t e.expiresAfter
      (decide (c.baseURL = env.MainnetAPIURL)) w₁ = (Except.error err, w₂)) :
    (executeAction env e action result w).value
        = Outcome.returned { err := some err, result := result } ∧
      List.countP Call.isPost (executeAction env e action result w).calls = 0 ∧
      List.countP Call.isUnmarshal (executeAction env e action result w).calls = 0 := by
  rw [executeAction_of_sign_error env e c action result w w₁ w₂ t err hc hnow hs]
  simp [Call.isPost, Call.isUnmarshal]

/-- Claim C6 at a signer that fails with `invalid key`. -/
theorem executeAction_sign_error_no_post_witness :
    (executeAction (scripted (Except.error "invalid key") (Except.ok [1, 2]) decodeAll)
        vaultExchange orderMap [9] 0).value
        = Outcome.returned { err := some "invalid key", result := ([9] : List UInt8) } ∧
      List.countP Call.isPost
        (executeAction (scripted (Except.error "invalid key") (Except.ok [1, 2]) decodeAll)
          vaultExchange orderMap [9] 0).calls = 0 ∧
      List.countP Call.isUnmarshal
        (executeAction (scripted (Except.error "invalid key") (Except.ok [1, 2]) decodeAll)
          vaultExchange orderMap [9] 0).calls = 0 :=
  executeAction_sign_error_no_post
    (scripted (Except.error "invalid key") (Except.ok [1, 2]) decodeAll) vaultExchange
    { baseURL := "https://api.hyperliquid-testnet.xyz", debug := false, logger := none }
    orderMap [9] 0 1 1 1700000000000 "invalid key" rfl rfl rfl

/-- Claim C7. If signing succeeds and the transport returns an error, `executeAction`
returns exactly that error, the value the caller's `result` points to is as it was, and the
call log holds exactly one call to the transport and no call to the decoder. -/
theorem executeAction_post_error_no_decode {ω κ σ ε ρ : Type} (env : Collab ω κ σ ε ρ)
    (e : Exchange κ) (c : Client) (action : GoAny σ) (result : ρ) (w w₁ w₂ w₃ : ω) (t : Int)
    (sig : σ) (err : ε) (hc : e.client = some c) (hnow : env.now w = (t, w₁))
    (hs : env.SignL1Action e.privateKey action e.vault t e.expiresAfter
      (decide (c.baseURL = env.MainnetAPIURL)) w₁ = (Except.ok sig, w₂))
    (hp : env.post e.client "/exchange" (postActionPayload e action sig t) w₂
      = (Except.error err, w₃)) :
    (executeAction env e action result w).value
        = Outcome.returned { err := some err, result := result } ∧
      List.countP Call.isPost (executeAction env e action result w).calls = 1 ∧
      List.countP Call.isUnmarshal (executeAction env e action result w).calls = 0 := by
  rw [executeAction_of_post_error env e c action result w w₁ w₂ w₃ t sig err hc hnow hs hp]
  simp [Call.isPost, Call.isUnmarshal]

/-- Claim C7 at a transport that fails with `connection refused`. -/
theorem executeAction_post_error_no_decode_witness :
    (executeAction (scripted (Except.ok "sig") (Except.error "connection refused") decodeAll)
        vaultExchange orderMap [9] 0).value
        = Outcome.returned { err := some "connection refused", result := ([9] : List UInt8) } ∧
      List.countP Call.isPost
        (executeAction
          (scripted (Except.ok "sig") (Except.error "connection refused") decodeAll)
          vaultExchange orderMap [9] 0).calls = 1 ∧
      List.countP Call.isUnmarshal
        (executeAction
          (scripted (Except.ok "sig") (Except.error "connection refused") decodeAll)
          vaultExchange orderMap [9] 0).calls = 0 :=
  executeAction_post_error_no_decode
    (scripted (Except.ok "sig") (Except.error "connection refused") decodeAll) vaultExchange
    { baseURL := "https://api.hyperliquid-testnet.xyz", debug := false, logger := none }
    orderMap [9] 0 1 1 1 1700000000000 "sig" "connection refused" rfl rfl rfl rfl

/-- Claim C8, as stated, fails. Two calls on the same exchange, action and result: in the
first the signer fails with the error `unexpected end of JSON input`; in the second the
signer and the transport succeed and the decoder fails with that same error. Both calls
hand the caller the same error and the same result: `executeAction` returns the decoder's
error as it is, with nothing added that would mark it as a malformed response. -/
theorem executeAction_decode_error_not_marked :
    (scripted (Except.error "unexpected end of JSON input") (Except.ok []) decodeAll).SignL1Action
        7 orderMap "0xABC" 1700000000000 none false 1
      = (Except.error "unexpected end of JSON input", 1) ∧
    (scripted (Except.ok "sig") (Except.ok []) (decodeNone "unexpected end of JSON input")).SignL1Action
        7 orderMap "0xABC" 1700000000000 none false 1
      = (Except.ok "sig", 1) ∧
    (scripted (Except.ok "sig") (Except.ok []) (decodeNone "unexpected end of JSON input")).post
        vaultExchange.client "/exchange"
        (postActionPayload vaultExchange orderMap "sig" 1700000000000) 1
      = (Except.ok [], 1) ∧
    (scripted (Except.ok "sig") (Except.ok []) (decodeNone "unexpected end of JSON input")).Unmarshal
        [] [] = ([], some "unexpected end of JSON input") ∧
    (executeAction
        (scripted (Except.error "unexpected end of JSON input") (Except.ok []) decodeAll)
        vaultExchange orderMap [] 0).value
      = Outcome.returned { err := some "unexpected end of JSON input", result := [] } ∧
    (executeAction
        (scripted (Except.ok "sig") (Except.ok []) (decodeNone "unexpected end of JSON input"))
        vaultExchange orderMap [] 0).value
      = Outcome.returned { err := some "unexpected end of JSON input", result := [] } :=
  ⟨rfl, rfl, rfl, rfl, rfl, rfl⟩

/-- Claim C8, amended. A call of `executeAction` on an exchange that has a client returns,
and what it returns is settled by the first stage that fails: the signer's error with the
result untouched; or, the signer having succeeded, the transport's error with the result
untouched; or, both having succeeded, whatever `json.Unmarshal` returns for the response,
its error unchanged (nil when the response decodes) and the result as the decoder left it.
The three cases exclude one another, since they differ on the answer of the signer or of
the transport. In particular the call returns nil exactly when the signer, the transport
and the decoder all succeed. -/
theorem executeAction_returns_first_failing_stage {ω κ σ ε ρ : Type}
    (env : Collab ω κ σ ε ρ) (e : Exchange κ) (c : Client) (action : GoAny σ) (result : ρ)
    (w w₁ : ω) (t : Int) (hc : e.client = some c) (hnow : env.now w = (t, w₁)) :
    ∃ x : Executed ε ρ,
      (executeAction env e action result w).value = Outcome.returned x ∧
      ((∃ err w₂,
          env.SignL1Action e.privateKey action e.vault t e.expiresAfter
            (decide (c.baseURL = env.MainnetAPIURL)) w₁ = (Except.error err, w₂) ∧
          x = { err := some err, result := result }) ∨
       (∃ sig w₂ err w₃,
          env.SignL1Action e.privateKey action e.vault t e.expiresAfter
            (decide (c.baseURL = env.MainnetAPIURL)) w₁ = (Except.ok sig, w₂) ∧
          env.post e.client "/exchange" (postActionPayload e action sig t) w₂
            = (Except.error err, w₃) ∧
          x = { err := some err, result := result }) ∨
       (∃ sig w₂ resp w₃,
          env.SignL1Action e.privateKey action e.vault t e.expiresAfter
            (decide (c.baseURL = env.MainnetAPIURL)) w₁ = (Except.ok sig, w₂) ∧
          env.post e.client "/exchange" (postActionPayload e action sig t) w₂
            = (Except.ok resp, w₃) ∧
          x = { err := (env.Unmarshal resp result).2,
                result := (env.Unmarshal resp result).1 })) ∧
      (x.err = none ↔
        ∃ sig w₂ resp w₃,
          env.SignL1Action e.privateKey action e.vault t e.expiresAfter
            (decide (c.baseURL = env.MainnetAPIURL)) w₁ = (Except.ok sig, w₂) ∧
          env.post e.client "/exchange" (postActionPayload e action sig t) w₂
            = (Except.ok resp, w₃) ∧
          (env.Unmarshal resp result).2 = none) := by
  cases hs : env.SignL1Action e.privateKey action e.vault t e.expiresAfter
      (decide (c.baseURL = env.MainnetAPIURL)) w₁ with
  | mk s w₂ =>
    cases s with
    | error err =>
      refine ⟨{ err := some err, result := result }, ?_, Or.inl ⟨err, w₂, rfl, rfl⟩, ?_⟩
      · rw [executeAction_of_sign_error env e c action result w w₁ w₂ t err hc hnow hs]
      · simp
    | ok sig =>
      cases hp : env.post e.client "/exchange" (postActionPayload e action sig t) w₂ with
      | mk r w₃ =>
        cases r with
        | error err =>
          refine ⟨{ err := some err, result := result }, ?_,
            Or.inr (Or.inl ⟨sig, w₂, err, w₃, rfl, hp, rfl⟩), ?_⟩
          · rw [executeAction_of_post_error env e c action result w w₁ w₂ w₃ t sig err hc hnow
              hs hp]
          · constructor
            · intro h
              cases h
            · rintro ⟨sig', w₂', resp', w₃', h1, h2, _⟩
              cases h1
              rw [hp] at h2
              cases h2
        | ok resp =>
          refine ⟨{ err := (env.Unmarshal resp result).2,
                    result := (env.Unmarshal resp result).1 }, ?_,
            Or.inr (Or.inr ⟨sig, w₂, resp, w₃, rfl, hp, rfl⟩), ?_⟩
          · rw [executeAction_of_post_ok env e c action result w w₁ w₂ w₃ t sig resp hc hnow
              hs hp]
          · constructor
            · intro h
              exact ⟨sig, w₂, resp, w₃, rfl, hp, h⟩
            · rintro ⟨sig', w₂', resp', w₃', h1, h2, h3⟩
              cases h1
              rw [hp] at h2
              cases h2
              exact h3

/-- Claim C8, amended, at a decoder that rejects the response with `unexpected end of JSON
input` after the signer and the transport have succeeded. -/
theorem executeAction_returns_first_failing_stage_witness :
    vaultExchange.client
      = some { baseURL := "https://api.hyperliquid-testnet.xyz", debug := false,
               logger := none } ∧
    ∃ x : Executed String (List UInt8),
      (executeAction
          (scripted (Except.ok "sig") (Except.ok []) (decodeNone "unexpected end of JSON input"))
          vaultExchange orderMap [] 0).value = Outcome.returned x ∧
      ((∃ err w₂,
          (scripted (Except.ok "sig") (Except.ok [])
              (decodeNone "unexpected end of JSON input")).SignL1Action
            7 orderMap "0xABC" 1700000000000 none false 1 = (Except.error err, w₂) ∧
          x = { err := some err, result := [] }) ∨
       (∃ sig w₂ err w₃,
          (scripted (Except.ok "sig") (Except.ok [])
              (decodeNone "unexpected end of JSON input")).SignL1Action
            7 orderMap "0xABC" 1700000000000 none false 1 = (Except.ok sig, w₂) ∧
          (scripted (Except.ok "sig") (Except.ok [])
              (decodeNone "unexpected end of JSON input")).post
            vaultExchange.client "/exchange"
            (postActionPayload vaultExchange orderMap sig 1700000000000) w₂
            = (Except.error err, w₃) ∧
          x = { err := some err, result := [] }) ∨
       (∃ sig w₂ resp w₃,
          (scripted (Except.ok "sig") (Except.ok [])
              (decodeNone "unexpected end of JSON input")).SignL1Action
            7 orderMap "0xABC" 1700000000000 none false 1 = (Except.ok sig, w₂) ∧
          (scripted (Except.ok "sig") (Except.ok [])
              (decodeNone "unexpected end of JSON input")).post
            vaultExchange.client "/exchange"
            (postActionPayload vaultExchange orderMap sig 1700000000000) w₂
            = (Except.ok resp, w₃) ∧
          x = { err := (decodeNone "unexpected end of JSON input" resp []).2,
                result := (decodeNone "unexpected end of JSON input" resp []).1 })) ∧
      (x.err = none ↔
        ∃ sig w₂ resp w₃,
          (scripted (Except.ok "sig") (Except.ok [])
              (decodeNone "unexpected end of JSON input")).SignL1Action
            7 orderMap "0xABC" 1700000000000 none false 1 = (Except.ok sig, w₂) ∧
          (scripted (Except.ok "sig") (Except.ok [])
              (decodeNone "unexpected end of JSON input")).post
            vaultExchange.client "/exchange"
            (postActionPayload vaultExchange orderMap sig 1700000000000) w₂
            = (Except.ok resp, w₃) ∧
          (decodeNone "unexpected end of JSON input" resp []).2 = none) :=
  ⟨rfl,
    executeAction_returns_first_failing_stage
      (scripted (Except.ok "sig") (Except.ok []) (decodeNone "unexpected end of JSON input"))
      vaultExchange
      { baseURL := "https://api.hyperliquid-testnet.xyz", debug := false, logger := none }
      orderMap [] 0 1 1700000000000 rfl rfl⟩

/-! ## Strongly-typed actions -/

/-- Whatever its fields say, a struct action gets the configured vault: the type assertion
to `map[string]any` fails and the other branch of `postAction` is taken. -/
theorem postAction_struct_vaultAddress_is_vault {κ σ : Type} (e : Exchange κ)
    (typeName : String) (fields : List (String × GoAny σ)) (signature : σ) (nonce : Int)
    (hv : e.vault ≠ "") :
    GoMap.get? (postActionPayload e (GoAny.struct typeName fields) signature nonce)
      "vaultAddress" = some (GoAny.string e.vault) := by
  rw [get?_vaultAddress_postActionPayload]
  simp [hv, GoAny.assertMap]

/-- Claim C9 against the code. The struct `transferStruct` and the map `transferMap` carry
the same entries and both have the kind `usdClassTransfer`. With the vault `0xABC`
configured, `postAction` binds `vaultAddress` to null for the map and to `0xABC` for the
struct. -/
theorem postAction_struct_usdClassTransfer_gets_vault :
    actionKind transferStruct = some "usdClassTransfer" ∧
    actionKind transferMap = some "usdClassTransfer" ∧
    vaultExchange.vault = "0xABC" ∧
    (postAction (scripted (Except.ok "sig") (Except.ok []) decodeAll) vaultExchange
        transferMap "sig" 42 0).calls
      = [Call.post vaultExchange.client "/exchange"
          [("action", transferMap), ("nonce", GoAny.int64 42),
           ("signature", GoAny.signature "sig"), ("vaultAddress", GoAny.nil)]] ∧
    (postAction (scripted (Except.ok "sig") (Except.ok []) decodeAll) vaultExchange
        transferStruct "sig" 42 0).calls
      = [Call.post vaultExchange.client "/exchange"
          [("action", transferStruct), ("nonce", GoAny.int64 42),
           ("signature", GoAny.signature "sig"), ("vaultAddress", GoAny.string "0xABC")]] :=
  ⟨rfl, rfl, rfl, rfl, rfl⟩

/-! ## Forwarded options -/

/-- The options stored by `ExchangeOptClientOptions` and `ExchangeOptInfoOptions` do not
reach the constructors: `NewExchange` calls `NewClient` and `NewInfo` with the lists it
builds locally, which hold at most the debug option. -/
theorem NewExchange_forwards_nothing {κ μ ς : Type}
    (newClient : String → List ClientOpt → Option Client)
    (newInfo : String → Bool → μ → ς → List InfoOpt → Option Info)
    (privateKey : κ) (baseURL : String) (metaData : μ) (vaultAddr accountAddr : String)
    (spotMeta : ς) (cs : List ClientOpt) (is : List InfoOpt) :
    (NewExchange newClient newInfo privateKey baseURL metaData vaultAddr accountAddr spotMeta
        [ExchangeOptClientOptions cs, ExchangeOptInfoOptions is]).client
      = newClient baseURL [] ∧
    (NewExchange newClient newInfo privateKey baseURL metaData vaultAddr accountAddr spotMeta
        [ExchangeOptClientOptions cs, ExchangeOptInfoOptions is]).info
      = newInfo baseURL true metaData spotMeta [] :=
  ⟨rfl, rfl⟩

/-- Claim C10 against the code. `NewExchange` is given `ExchangeOptClientOptions` with the
client option `ClientOptDebugMode` and `ExchangeOptInfoOptions` with the info option
`InfoOptDebugMode`. Applied by the constructors, the two options would switch debugging on;
the client and the info that `NewExchange` constructs have it off, because the
constructors are called without any option. The two options did store the lists in the
exchange. -/
theorem NewExchange_drops_forwarded_options :
    (NewClient "https://api.hyperliquid.xyz" [ClientOptDebugMode]).map Client.debug
      = some true ∧
    (NewInfo "https://api.hyperliquid.xyz" true () () [InfoOptDebugMode]).map Info.debug
      = some true ∧
    (NewExchange NewClient NewInfo (7 : Nat) "https://api.hyperliquid.xyz" () "" "" ()
        [ExchangeOptClientOptions [ClientOptDebugMode],
         ExchangeOptInfoOptions [InfoOptDebugMode]]).client
      = some { baseURL := "https://api.hyperliquid.xyz", debug := false, logger := none } ∧
    (NewExchange NewClient NewInfo (7 : Nat) "https://api.hyperliquid.xyz" () "" "" ()
        [ExchangeOptClientOptions [ClientOptDebugMode],
         ExchangeOptInfoOptions [InfoOptDebugMode]]).client
      = NewClient "https://api.hyperliquid.xyz" [] ∧
    ((NewExchange NewClient NewInfo (7 : Nat) "https://api.hyperliquid.xyz" () "" "" ()
        [ExchangeOptClientOptions [ClientOptDebugMode],
         ExchangeOptInfoOptions [InfoOptDebugMode]]).info).map Info.debug
      = some false ∧
    (NewExchange NewClient NewInfo (7 : Nat) "https://api.hyperliquid.xyz" () "" "" ()
        [ExchangeOptClientOptions [ClientOptDebugMode],
         ExchangeOptInfoOptions [InfoOptDebugMode]]).clientOpts.length = 1 ∧
    (NewExchange NewClient NewInfo (7 : Nat) "https://api.hyperliquid.xyz" () "" "" ()
        [ExchangeOptClientOptions [ClientOptDebugMode],
         ExchangeOptInfoOptions [InfoOptDebugMode]]).infoOpts.length = 1 :=
  ⟨rfl, rfl, rfl, rfl, rfl, rfl, rfl⟩

end Hyperliquid
